import Mathlib

set_option maxHeartbeats 1000000

/-!
Shallow embedding of the deploy-function pipeline of this repository
(`lib/classes/YamlParser.js` and the unnamed companion file): the
deployment locator (`getLastDeploymentDirectory` /
`setLastDeploymentDirectory`), the template fetcher
(`downloadTemplateFromS3`), the role resolver (`normalizeArnRole`), the
configuration reconciler (`updateFunctionConfiguration`), the artifact
sync gate (`deployFunction`) and the YAML loader (`YamlParser.parse`).
JavaScript objects are modelled with explicit absent/scalar/structured
tags, machine work (regex matching, JSON parsing) is implemented
directly, and remote calls are recorded in an explicit trace.
-/

/-! ## Deployment locator (`getLastDeploymentDirectory` / `setLastDeploymentDirectory`) -/

/-- One listed S3 object; the code only reads `item.Key`. -/
structure S3ObjectEntry where
  Key : String
  deriving Repr, DecidableEq

/-- One `listObjectsV2` response as read by the code: `Contents`
(defaulting to `[]` via `_.get(result, 'Contents', [])`) and the
`Truncated` flag the code consults to decide whether to paginate. -/
structure ListPage where
  Contents : List S3ObjectEntry := []
  Truncated : Bool := false
  deriving Repr, DecidableEq

/-- Characters admitted inside the capture group of the key pattern:
anything but a slash or a hyphen. -/
def groupChar (c : Char) : Bool := c != '/' && c != '-'

/-- Match the key pattern's tail (a slash, then the capture group of
one or more characters that are neither slash nor hyphen, then any
characters, then a slash, then a lazy tail) at the start of a suffix of
the key: a slash, then a nonempty greedy run of group characters, then
the rest must still contain a slash.  Returns the captured run.
(Shrinking the greedy run only moves non-slash characters into the
following wildcard, so greedy-maximal succeeds whenever any split
succeeds.) -/
def matchTail : List Char → Option (List Char)
  | '/' :: rest =>
    let grp := rest.takeWhile groupChar
    let rest2 := rest.dropWhile groupChar
    if grp != [] && rest2.contains '/' then some grp else none
  | _ => none

/-- Backtracking search for the leading greedy wildcard of the
anchored key regex (the one run by `parsedTime` in the source): the
rightmost suffix at which `matchTail` succeeds wins, matching the
greedy leftmost-longest semantics of the JavaScript regex. -/
def extractGroup : List Char → Option (List Char)
  | [] => none
  | c :: rest =>
    match extractGroup rest with
    | some g => some g
    | none => matchTail (c :: rest)

/-- Decimal value of a digit string. -/
def digitsToNat (cs : List Char) : Nat :=
  cs.foldl (fun a c => a * 10 + (c.toNat - 48)) 0

/-- Model of `_.toInteger` on the captured group: a nonempty all-digit
string is read in decimal, anything else coerces to `0` (the group can
never contain `-`, so no negative values arise; exotic numeric forms
such as hexadecimal or exponent notation are not modelled because the
keys written by the deploy pipeline never produce them). -/
def toIntegerModel (cs : List Char) : Nat :=
  if !cs.isEmpty && cs.all (fun c => c.isDigit) then digitsToNat cs else 0

/-- Timestamp extraction from one listed key: the anchored regex
capture run by `parsedTime` followed by `_.toInteger`; `none` when the
regex does not match (such entries are skipped). -/
def extractTime (key : String) : Option Nat :=
  (extractGroup key.data).map toIntegerModel

/-- All timestamps extracted from one page's entries. -/
def pageTimes (pg : ListPage) : List Nat :=
  pg.Contents.filterMap (fun o => extractTime o.Key)

/-- All timestamps extracted across a sequence of pages. -/
def allTimes : List ListPage → List Nat
  | [] => []
  | pg :: rest => pageTimes pg ++ allTimes rest

/-- The `_.reduce` body of `searchLatest`: skip non-matching keys,
otherwise `time > __ ? time : __`. -/
def reduceStep (acc : Nat) (item : S3ObjectEntry) : Nat :=
  match extractTime item.Key with
  | none => acc
  | some time => if time > acc then time else acc

/-- One page folded into the running maximum `current`. -/
def pageReduce (current : Nat) (pg : ListPage) : Nat :=
  pg.Contents.foldl reduceStep current

/-- The recursive pagination loop `searchLatest(current, token)`: fold
the current page into the accumulator, recurse on the next page while
the response reports truncation, otherwise stop.  The page list is the
sequence of responses the object store returns along the continuation
chain. -/
def searchLatest : Nat → List ListPage → Nat
  | current, [] => current
  | current, pg :: rest =>
    let latest := pageReduce current pg
    if pg.Truncated then searchLatest latest rest else latest

/-- Global maximum timestamp over every entry of every page (0 when
nothing matches). -/
def globalMaxTime (pages : List ListPage) : Nat :=
  (allTimes pages).foldl max 0

/-- `searchLatest(0).then(time => ...)`: a zero accumulated maximum is
rejected with the no-prior-deployment error, otherwise the timestamp is
used to build the deployment directory
`serverless/<service>/<stage>/<time>-<iso>`. -/
def getLastDeploymentTime (pages : List ListPage) : Except String Nat :=
  if searchLatest 0 pages = 0 then
    Except.error "Could not find a previous service deployment"
  else Except.ok (searchLatest 0 pages)

/-- A well-formed response chain: every page except the last reports
truncation, the last one does not. -/
def chainedPages : List ListPage → Bool
  | [] => false
  | [pg] => !pg.Truncated
  | pg :: rest => pg.Truncated && chainedPages rest

lemma searchLatest_cons (c : Nat) (pg : ListPage) (rest : List ListPage) :
    searchLatest c (pg :: rest) =
      if pg.Truncated then searchLatest (pageReduce c pg) rest
      else pageReduce c pg := rfl

lemma reduceStep_none (c : Nat) (x : S3ObjectEntry) (h : extractTime x.Key = none) :
    reduceStep c x = c := by
  simp [reduceStep, h]

lemma reduceStep_some (c t : Nat) (x : S3ObjectEntry) (h : extractTime x.Key = some t) :
    reduceStep c x = max c t := by
  simp only [reduceStep, h]
  rw [Nat.max_def]; split <;> split <;> omega

lemma pageReduce_eq_foldl (pg : ListPage) : ∀ c : Nat,
    pageReduce c pg = (pageTimes pg).foldl max c := by
  show ∀ c, pg.Contents.foldl reduceStep c
      = (pg.Contents.filterMap (fun o => extractTime o.Key)).foldl max c
  induction pg.Contents with
  | nil => intro c; rfl
  | cons x xs ih =>
    intro c
    rcases h : extractTime x.Key with _ | t
    · simp only [List.foldl_cons, List.filterMap_cons, h, reduceStep_none c x h]
      exact ih c
    · simp only [List.foldl_cons, List.filterMap_cons, h, reduceStep_some c t x h]
      exact ih (max c t)

lemma foldl_max_eq (l : List Nat) : ∀ c : Nat, l.foldl max c = max c (l.foldl max 0) := by
  induction l with
  | nil => intro c; simp
  | cons x xs ih =>
    intro c
    simp only [List.foldl_cons]
    rw [ih (max c x), ih (max 0 x), Nat.zero_max, max_assoc]

lemma searchLatest_chained : ∀ (pages : List ListPage), chainedPages pages = true →
    ∀ c : Nat, searchLatest c pages = (allTimes pages).foldl max c := by
  intro pages
  induction pages with
  | nil => intro h; cases h
  | cons pg rest ih =>
    intro hch c
    cases rest with
    | nil =>
      have ht : pg.Truncated = false := by
        simpa [chainedPages] using hch
      rw [searchLatest_cons, ht, if_neg (by simp), pageReduce_eq_foldl]
      simp [allTimes]
    | cons pg2 rest2 =>
      have ht : pg.Truncated = true ∧ chainedPages (pg2 :: rest2) = true := by
        simpa [chainedPages] using hch
      rw [searchLatest_cons, ht.1, if_pos rfl, ih ht.2, pageReduce_eq_foldl]
      show _ = (allTimes (pg :: pg2 :: rest2)).foldl max c
      have : allTimes (pg :: pg2 :: rest2) = pageTimes pg ++ allTimes (pg2 :: rest2) := rfl
      rw [this, List.foldl_append]

lemma searchLatest_le (pages : List ListPage) :
    ∀ c : Nat, searchLatest c pages ≤ max c (globalMaxTime pages) := by
  induction pages with
  | nil =>
    intro c
    simp [searchLatest, globalMaxTime, allTimes]
  | cons pg rest ih =>
    intro c
    have hglob : globalMaxTime (pg :: rest)
        = max ((pageTimes pg).foldl max 0) (globalMaxTime rest) := by
      show (pageTimes pg ++ allTimes rest).foldl max 0 = _
      rw [List.foldl_append, foldl_max_eq]
      rfl
    have hpr : pageReduce c pg ≤ max c ((pageTimes pg).foldl max 0) := by
      rw [pageReduce_eq_foldl, foldl_max_eq]
    rw [searchLatest_cons, hglob]
    by_cases ht : pg.Truncated = true
    · rw [ht, if_pos rfl]
      calc searchLatest (pageReduce c pg) rest
          ≤ max (pageReduce c pg) (globalMaxTime rest) := ih _
        _ ≤ max (max c ((pageTimes pg).foldl max 0)) (globalMaxTime rest) :=
            max_le_max hpr (le_refl _)
        _ = max c (max ((pageTimes pg).foldl max 0) (globalMaxTime rest)) := max_assoc ..
    · rw [if_neg ht]
      exact le_trans hpr (max_le_max (le_refl _) (le_max_left _ _))

/-- Claim C1: over any well-formed chain of listing pages (every page
but the last truncated, the last untruncated) whose entries carry a
positive maximal timestamp, the deployment locator returns the global
maximum of the timestamps extracted from all entries' keys across all
pages — not the maximum of a single page or of the last page. -/
theorem locator_returns_global_max (pages : List ListPage)
    (hchain : chainedPages pages = true) (hpos : 0 < globalMaxTime pages) :
    getLastDeploymentTime pages = Except.ok (globalMaxTime pages) := by
  have h := searchLatest_chained pages hchain 0
  have h0 : searchLatest 0 pages = globalMaxTime pages := by
    rw [h]; rfl
  unfold getLastDeploymentTime
  rw [h0]
  have : globalMaxTime pages ≠ 0 := by omega
  simp [this]

/-- Two truncated pages followed by an untruncated one, with the global
maximum (9) sitting on the middle page, a duplicate (5) and a
non-matching key scattered around. -/
def pagesW : List ListPage :=
  [ { Contents := [ { Key := "serverless/my-service/dev/5-2020/a.json" },
                    { Key := "nonmatching" } ], Truncated := true },
    { Contents := [ { Key := "serverless/my-service/dev/9-2021/b.json" } ], Truncated := true },
    { Contents := [ { Key := "serverless/my-service/dev/5-2020/a.json" },
                    { Key := "serverless/my-service/dev/7-2019/c.json" } ], Truncated := false } ]

theorem locator_returns_global_max_witness :
    chainedPages pagesW = true ∧ 0 < globalMaxTime pagesW ∧ globalMaxTime pagesW = 9 ∧
    getLastDeploymentTime pagesW = Except.ok (globalMaxTime pagesW) :=
  ⟨by decide, by decide, by decide,
    locator_returns_global_max pagesW (by decide) (by decide)⟩

/-- Claim C10: whenever the accumulated maximum timestamp over all
listed entries is zero — in particular when matching entries exist but
every extracted timestamp segment coerces to the integer 0 — the
locator fails with the no-prior-deployment error, exactly as on an
empty listing: zero is indistinguishable from absence. -/
theorem zero_timestamp_is_no_deployment (pages : List ListPage)
    (hzero : globalMaxTime pages = 0) :
    getLastDeploymentTime pages = Except.error "Could not find a previous service deployment" ∧
    getLastDeploymentTime pages = getLastDeploymentTime [] := by
  have hle := searchLatest_le pages 0
  rw [hzero] at hle
  have h0 : searchLatest 0 pages = 0 := by
    simpa using hle
  constructor
  · simp [getLastDeploymentTime, h0]
  · simp [getLastDeploymentTime, h0, searchLatest]

/-- A single untruncated page whose only entry matches the key pattern
but whose timestamp segment (`abc`) coerces to the integer 0. -/
def pagesZ : List ListPage :=
  [ { Contents := [ { Key := "serverless/my-service/dev/abc-2020/file.json" } ],
      Truncated := false } ]

theorem zero_timestamp_is_no_deployment_witness :
    extractTime "serverless/my-service/dev/abc-2020/file.json" = some 0 ∧
    getLastDeploymentTime pagesZ
      = Except.error "Could not find a previous service deployment" :=
  ⟨by decide, (zero_timestamp_is_no_deployment pagesZ (by decide)).1⟩

/-! ## Template fetcher (`downloadTemplateFromS3`) -/

/-- Parsed JSON values; numeric literals are kept verbatim as the
source text of the number (the fetched template is only stored, never
computed with, so no numeric interpretation is needed). -/
inductive JsonVal where
  | null
  | bool (b : Bool)
  | num (lit : String)
  | str (s : String)
  | arr (xs : List JsonVal)
  | obj (fields : List (String × JsonVal))

/-- JSON insignificant whitespace. -/
def isWsChar (c : Char) : Bool := c == ' ' || c == '\t' || c == '\n' || c == '\r'

def skipWs (cs : List Char) : List Char := cs.dropWhile isWsChar

/-- Characters that may continue a JSON numeric literal. -/
def numChar (c : Char) : Bool :=
  c.isDigit || c == '-' || c == '+' || c == '.' || c == 'e' || c == 'E'

def isHexDigitChar (c : Char) : Bool :=
  c.isDigit || ('a' ≤ c && c ≤ 'f') || ('A' ≤ c && c ≤ 'F')

def hexVal (c : Char) : Nat :=
  if c.isDigit then c.toNat - 48
  else if 'a' ≤ c && c ≤ 'f' then c.toNat - 87
  else c.toNat - 55

/-- Body of a JSON string literal after the opening quote: plain
characters plus the standard escapes (a lone bmp code point for the
unicode escape; surrogate pairs are not recombined). Returns the
decoded characters and the input after the closing quote. -/
def parseStringBody : Nat → List Char → Option (List Char × List Char)
  | 0, _ => none
  | _, [] => none
  | fuel + 1, c :: rest =>
    if c == '"' then some ([], rest)
    else if c == '\\' then
      match rest with
      | [] => none
      | e :: rest2 =>
        if e == 'u' then
          match rest2 with
          | h1 :: h2 :: h3 :: h4 :: rest3 =>
            if isHexDigitChar h1 && isHexDigitChar h2 && isHexDigitChar h3 && isHexDigitChar h4 then
              (parseStringBody fuel rest3).map (fun p =>
                (Char.ofNat (((hexVal h1 * 16 + hexVal h2) * 16 + hexVal h3) * 16 + hexVal h4)
                  :: p.1, p.2))
            else none
          | _ => none
        else
          let esc : Option Char :=
            if e == '"' then some '"'
            else if e == '\\' then some '\\'
            else if e == '/' then some '/'
            else if e == 'n' then some '\n'
            else if e == 't' then some '\t'
            else if e == 'r' then some '\r'
            else if e == 'b' then some (Char.ofNat 8)
            else if e == 'f' then some (Char.ofNat 12)
            else none
          match esc with
          | some ch => (parseStringBody fuel rest2).map (fun p => (ch :: p.1, p.2))
          | none => none
    else (parseStringBody fuel rest).map (fun p => (c :: p.1, p.2))

mutual

/-- Recursive-descent JSON value parser (fuel-indexed; the fuel is
always at least the remaining input length, and every recursive call
follows at least one consumed character). -/
def parseValue : Nat → List Char → Option (JsonVal × List Char)
  | 0, _ => none
  | fuel + 1, cs =>
    match skipWs cs with
    | [] => none
    | c :: rest =>
      if c == '{' then
        match skipWs rest with
        | '}' :: rest2 => some (.obj [], rest2)
        | _ => parseMembers fuel rest
      else if c == '[' then
        match skipWs rest with
        | ']' :: rest2 => some (.arr [], rest2)
        | _ => parseItems fuel rest
      else if c == '"' then
        match parseStringBody (rest.length + 1) rest with
        | some (s, rest2) => some (.str (String.mk s), rest2)
        | none => none
      else if c == 't' then
        match rest with
        | 'r' :: 'u' :: 'e' :: rest2 => some (.bool true, rest2)
        | _ => none
      else if c == 'f' then
        match rest with
        | 'a' :: 'l' :: 's' :: 'e' :: rest2 => some (.bool false, rest2)
        | _ => none
      else if c == 'n' then
        match rest with
        | 'u' :: 'l' :: 'l' :: rest2 => some (.null, rest2)
        | _ => none
      else if c == '-' || c.isDigit then
        some (.num (String.mk ((c :: rest).takeWhile numChar)),
          (c :: rest).dropWhile numChar)
      else none

/-- Comma-separated array items up to the closing bracket. -/
def parseItems : Nat → List Char → Option (JsonVal × List Char)
  | 0, _ => none
  | fuel + 1, cs =>
    match parseValue fuel cs with
    | none => none
    | some (v, rest) =>
      match skipWs rest with
      | ',' :: rest2 =>
        match parseItems fuel rest2 with
        | some (.arr xs, rest3) => some (.arr (v :: xs), rest3)
        | _ => none
      | ']' :: rest2 => some (.arr [v], rest2)
      | _ => none

/-- Comma-separated object members up to the closing brace. -/
def parseMembers : Nat → List Char → Option (JsonVal × List Char)
  | 0, _ => none
  | fuel + 1, cs =>
    match skipWs cs with
    | '"' :: rest =>
      match parseStringBody (rest.length + 1) rest with
      | some (k, rest2) =>
        match skipWs rest2 with
        | ':' :: rest3 =>
          match parseValue fuel rest3 with
          | some (v, rest4) =>
            match skipWs rest4 with
            | ',' :: rest5 =>
              match parseMembers fuel rest5 with
              | some (.obj ms, rest6) => some (.obj ((String.mk k, v) :: ms), rest6)
              | _ => none
            | '}' :: rest5 => some (.obj [(String.mk k, v)], rest5)
            | _ => none
          | none => none
        | _ => none
      | none => none
    | _ => none

end

/-- Model of `JSON.parse` on the decoded body text. -/
def parseJson (s : String) : Option JsonVal :=
  match parseValue (s.length + 1) s.data with
  | some (v, rest) => if (skipWs rest).isEmpty then some v else none
  | none => none

/-- One `getObject` response as read by the code: `ContentType`,
`ContentLength` (read with default 0), `Body` (a buffer, absent or
present; a present buffer is always truthy) and the
`Metadata.filesha256` entry. -/
structure S3GetResponse where
  ContentType : Option String := none
  ContentLength : Option Int := none
  Body : Option String := none
  MetadataFilesha256 : Option String := none

/-- `downloadTemplateFromS3` after the `getObject` response arrives:
reject unless the declared content type is `application/json`, the
declared length is strictly positive and a body is present; otherwise
record the fingerprint metadata (defaulting to the empty string),
decode the body as utf-8 text and parse it as JSON (`JSON.parse`
failure rejects the promise with a syntax error). -/
def downloadTemplateFromS3 (resp : S3GetResponse) : Except String (JsonVal × String) :=
  if resp.ContentType = some "application/json" ∧ 0 < resp.ContentLength.getD 0 ∧
      resp.Body.isSome = true then
    match parseJson (resp.Body.getD "") with
    | some template => Except.ok (template, resp.MetadataFilesha256.getD "")
    | none => Except.error "Unexpected token in JSON"
  else Except.error "Could not retrieve CF template from S3"

/-- Claim C4: the template fetch fails, returning no partial value,
unless the declared content type equals `application/json`, the
declared size is strictly positive and a body payload is present; when
all three hold it decodes the body as text and parses it as JSON. -/
theorem template_integrity_gate (resp : S3GetResponse) :
    (¬ (resp.ContentType = some "application/json" ∧ 0 < resp.ContentLength.getD 0 ∧
        resp.Body.isSome = true) →
      downloadTemplateFromS3 resp = Except.error "Could not retrieve CF template from S3") ∧
    ((resp.ContentType = some "application/json" ∧ 0 < resp.ContentLength.getD 0 ∧
        resp.Body.isSome = true) →
      downloadTemplateFromS3 resp =
        match parseJson (resp.Body.getD "") with
        | some template => Except.ok (template, resp.MetadataFilesha256.getD "")
        | none => Except.error "Unexpected token in JSON") := by
  constructor
  · intro h
    unfold downloadTemplateFromS3
    rw [if_neg h]
  · intro h
    unfold downloadTemplateFromS3
    rw [if_pos h]

/-- The accepting response of the claim's example. -/
def respW : S3GetResponse :=
  { ContentType := some "application/json", ContentLength := some 2, Body := some "{}" }

theorem template_integrity_gate_witness :
    downloadTemplateFromS3 respW = Except.ok (JsonVal.obj [], "") ∧
    downloadTemplateFromS3
        { ContentType := some "text/plain", ContentLength := some 2, Body := some "{}" }
      = Except.error "Could not retrieve CF template from S3" := by
  constructor
  · have h := (template_integrity_gate respW).2 ⟨rfl, by decide, rfl⟩
    rw [h]
    rfl
  · exact (template_integrity_gate _).1 (by decide)

/-! ## Declarative-document loader (`YamlParser.parse`) -/

/-- The process-global state the loader touches: the current working
directory of the process. -/
structure ProcState where
  cwd : String
  deriving Repr, DecidableEq

/-- JavaScript `string.split('/')` on the character list. -/
def splitOnSlash : List Char → List (List Char)
  | [] => [[]]
  | c :: rest =>
    let r := splitOnSlash rest
    if c == '/' then [] :: r
    else
      match r with
      | [] => [[c]]
      | x :: xs => (c :: x) :: xs

/-- JavaScript `array.join('/')`. -/
def joinSlash : List (List Char) → List Char
  | [] => []
  | [x] => x
  | x :: xs => x ++ '/' :: joinSlash xs

/-- The parent-directory computation at the top of `YamlParser.parse`:
split the path on the separator (`path.sep`, the posix slash here), pop
the file name, re-join with a slash. -/
def parentDirOf (yamlFilePath : String) : String :=
  String.mk (joinSlash ((splitOnSlash yamlFilePath.data).dropLast))

/-- `YamlParser.parse` as it acts on process-global state: before
reading the root file and resolving references it calls
`process.chdir(parentDir)`, so the ambient working directory after the
call is the root document's parent directory.  Reading the file and
resolving relative and remote references are delegated to external
collaborators and happen against this mutated ambient state. -/
def yamlParserParse (yamlFilePath : String) (st : ProcState) : ProcState :=
  { st with cwd := parentDirOf yamlFilePath }

/-- Claim C9 counterexample: parsing `services/app/serverless.yml` from
a process whose working directory is `original-dir` leaves the process
in `services/app`, so the loader does mutate ambient process state. -/
theorem loader_mutates_cwd_counterexample :
    (yamlParserParse "services/app/serverless.yml" { cwd := "original-dir" }).cwd
        ≠ "original-dir" ∧
    (yamlParserParse "services/app/serverless.yml" { cwd := "original-dir" }).cwd
        = "services/app" := by
  constructor <;> decide

/-- Claim C9 (amended): the loader resolves relative references against
the directory containing the root document, but it establishes that
base by mutating the process's current working directory: after `parse`
the ambient working directory equals the root document's parent
directory, for every starting state. -/
theorem loader_sets_cwd_to_parent (yamlFilePath : String) (st : ProcState) :
    (yamlParserParse yamlFilePath st).cwd = parentDirOf yamlFilePath := rfl

/-! ## Artifact sync gate (`deployFunction`) -/

/-- Outcome of the sync gate. -/
inductive SyncResult where
  | Skipped
  | Uploaded
  deriving Repr, DecidableEq

/-- `deployFunction` after the artifact bytes are read: compare the
base64-rendered sha256 digest of the local bytes (the digest function
is an external crypto primitive, taken here as a parameter) with the
remote descriptor's `CodeSha256`; skip when they agree and no force
flag is set, otherwise issue exactly one `updateFunctionCode` call.
The second component counts upload calls. -/
def deployFunction (sha256base64 : List Nat → String) (artifactData : List Nat)
    (remoteHash : String) (force : Bool) : SyncResult × Nat :=
  if remoteHash = sha256base64 artifactData ∧ force = false then (SyncResult.Skipped, 0)
  else (SyncResult.Uploaded, 1)

/-- Claim C6: the sync gate uploads exactly when the force flag is set
or the rendered digest of the artifact differs from the descriptor's
recorded hash; with an unchanged artifact and descriptor the gate skips
(and, being a pure function of its inputs, skips again on a repeated
call), and forcing uploads even with an unchanged hash. -/
theorem artifact_sync_gate (sha256base64 : List Nat → String) (artifactData : List Nat)
    (remoteHash : String) (force : Bool) :
    ((deployFunction sha256base64 artifactData remoteHash force).1 = SyncResult.Uploaded
        ↔ (force = true ∨ sha256base64 artifactData ≠ remoteHash)) ∧
    (remoteHash = sha256base64 artifactData ∧ force = false →
        deployFunction sha256base64 artifactData remoteHash force = (SyncResult.Skipped, 0)) ∧
    (force = true →
        deployFunction sha256base64 artifactData remoteHash force = (SyncResult.Uploaded, 1)) := by
  unfold deployFunction
  by_cases hc : remoteHash = sha256base64 artifactData <;> cases force <;>
    simp [hc] <;> try exact fun h => absurd hc (by simp [h, eq_comm])

/-! ## Configuration reconciler (`updateFunctionConfiguration`) and role resolver (`normalizeArnRole`) -/

/-- A JavaScript configuration field: absent from the object, present
with a concrete scalar value, or present with a structured placeholder
(an object value in the `_.isObject` sense, e.g. an unresolved
intrinsic). -/
inductive JField (α : Type) where
  | absent
  | scalar (v : α)
  | structured
  deriving Repr, DecidableEq

/-- The test `'key' in obj && !_.isObject(obj.key)`: the concrete value
when the field is present and non-structured. -/
def jfScalar {α : Type} : JField α → Option α
  | JField.scalar v => some v
  | _ => none

/-- First-or-second choice, mirroring both the if / else-if cascades on
fields and the JavaScript `||` on object-valued fields. -/
def optOr {α : Type} : Option α → Option α → Option α
  | some v, _ => some v
  | none, b => b

/-- A JavaScript value inside an environment map or a VPC id list:
either a concrete string or a structured placeholder. -/
inductive JVal where
  | str (s : String)
  | structured
  deriving Repr, DecidableEq

def isStructuredVal : JVal → Bool
  | JVal.structured => true
  | _ => false

/-- A `vpc` configuration object; a field is `none` when it is absent
or not an array (`_.isArray` fails). -/
structure Vpc where
  securityGroupIds : Option (List JVal) := none
  subnetIds : Option (List JVal) := none
  deriving Repr, DecidableEq

/-- `serverless.service.serviceObject`: only its `awsKmsKeyArn` is
read. -/
structure ServiceObj where
  awsKmsKeyArn : JField String := JField.absent
  deriving Repr, DecidableEq

/-- The provider-level defaults read by the reconciler. -/
structure ProviderObj where
  memorySize : JField Int := JField.absent
  timeout : JField Int := JField.absent
  environment : Option (List (String × JVal)) := none
  vpc : Option Vpc := none
  role : JField String := JField.absent
  deriving Repr, DecidableEq

/-- The function-level desired configuration (`options.functionObj`). -/
structure FunctionObj where
  name : String
  awsKmsKeyArn : JField String := JField.absent
  description : JField String := JField.absent
  memorySize : JField Int := JField.absent
  timeout : JField Int := JField.absent
  onError : JField String := JField.absent
  environment : Option (List (String × JVal)) := none
  vpc : Option Vpc := none
  role : JField String := JField.absent
  deriving Repr, DecidableEq

/-- The three desired-configuration objects the reconciler reads
(`serviceObj` may be undefined). -/
structure Config where
  functionObj : FunctionObj
  serviceObj : Option ServiceObj := none
  providerObj : ProviderObj := {}
  deriving Repr, DecidableEq

/-- The `VpcConfig` sub-object of the update parameters. -/
structure VpcPatch where
  SecurityGroupIds : Option (List JVal) := none
  SubnetIds : Option (List JVal) := none
  deriving Repr, DecidableEq

/-- The `params` object passed to `updateFunctionConfiguration`: the
identifying name plus the sparse patch fields. -/
structure Patch where
  FunctionName : String
  KMSKeyArn : Option String := none
  Description : Option String := none
  MemorySize : Option Int := none
  Timeout : Option Int := none
  DeadLetterTargetArn : Option String := none
  Environment : Option (List (String × JVal)) := none
  VpcConfig : Option VpcPatch := none
  Role : Option String := none
  deriving Repr, DecidableEq

/-- `_.isEmpty(_.omit(params, 'FunctionName'))`. -/
def patchOnlyName (p : Patch) : Bool :=
  p.KMSKeyArn.isNone && p.Description.isNone && p.MemorySize.isNone && p.Timeout.isNone &&
    p.DeadLetterTargetArn.isNone && p.Environment.isNone && p.VpcConfig.isNone && p.Role.isNone

/-- The error values the reconciler can raise locally. -/
inductive RoleError where
  /-- Reading `.Type` of an undefined resource lookup throws. -/
  | typeErrorUndefined
  /-- `Provided resource is not IAM Role.` -/
  | notIamRole
  deriving Repr, DecidableEq

inductive JsError where
  /-- `Invalid characters in environment variable` -/
  | invalidEnvKey
  | roleError (e : RoleError)
  deriving Repr, DecidableEq

/-- `Object.assign({}, providerObj.environment, functionObj.environment)`:
provider entries first (values overridden by the function level on key
collision), then the function-level entries with fresh keys. -/
def mergeEnv (prov fn : List (String × JVal)) : List (String × JVal) :=
  prov.map (fun kv => (kv.1, (fn.lookup kv.1).getD kv.2))
    ++ fn.filter (fun kv => (prov.lookup kv.1).isNone)

/-- The merged `params.Environment.Variables`. -/
def mergedVars (cfg : Config) : List (String × JVal) :=
  mergeEnv (cfg.providerObj.environment.getD []) (cfg.functionObj.environment.getD [])

/-- The bash-identifier pattern the code checks each key against:
a letter or underscore followed by letters, digits or underscores. -/
def envKeyValid (s : String) : Bool :=
  match s.data with
  | [] => false
  | c :: rest => (c.isAlpha || c == '_') && rest.all (fun d => d.isAlphanum || d == '_')

/-- The environment block of the patch: built only when either level
declares an environment; dropped entirely (without key validation) when
any merged value is structured; otherwise every key is validated,
throwing the invalid-environment-variable error on the first mismatch. -/
def envEntry (cfg : Config) : Except JsError (Option (List (String × JVal))) :=
  if (cfg.functionObj.environment.isSome || cfg.providerObj.environment.isSome) = true then
    if (mergedVars cfg).any (fun kv => isStructuredVal kv.2) then Except.ok none
    else if (mergedVars cfg).any (fun kv => !envKeyValid kv.1) then
      Except.error JsError.invalidEnvKey
    else Except.ok (some (mergedVars cfg))
  else Except.ok none

/-- `_.isArray(l) && !_.some(l, _.isObject)`: the list, kept only when
present and free of structured values. -/
def arrOk (l : Option (List JVal)) : Option (List JVal) :=
  match l with
  | some xs => if xs.any isStructuredVal then none else some xs
  | none => none

/-- The `VpcConfig` block: built when either level declares a `vpc`
(function level first), each id list included only when it passes
`arrOk`, and the whole block deleted again when it ends up empty. -/
def vpcEntry (cfg : Config) : Option VpcPatch :=
  match optOr cfg.functionObj.vpc cfg.providerObj.vpc with
  | none => none
  | some v =>
    if (arrOk v.securityGroupIds).isNone && (arrOk v.subnetIds).isNone then none
    else some { SecurityGroupIds := arrOk v.securityGroupIds, SubnetIds := arrOk v.subnetIds }

/-- The dead-letter field: `functionObj.onError && !_.isObject(...)`;
note the truthiness test, which also drops an empty string. -/
def onErrorEntry (f : FunctionObj) : Option String :=
  match f.onError with
  | JField.scalar v => if v == "" then none else some v
  | _ => none

/-- Lines 251-319 of the reconciler: the `params` object built from the
desired configuration only (the remote descriptor is never consulted),
with the environment step able to throw. -/
def buildParams (cfg : Config) : Except JsError Patch := do
  let f := cfg.functionObj
  let env ← envEntry cfg
  Except.ok
    { FunctionName := f.name
      KMSKeyArn := optOr (jfScalar f.awsKmsKeyArn)
        (match cfg.serviceObj with
         | some so => jfScalar so.awsKmsKeyArn
         | none => none)
      Description := jfScalar f.description
      MemorySize := optOr (jfScalar f.memorySize) (jfScalar cfg.providerObj.memorySize)
      Timeout := optOr (jfScalar f.timeout) (jfScalar cfg.providerObj.timeout)
      DeadLetterTargetArn := onErrorEntry f
      Environment := env
      VpcConfig := vpcEntry cfg }

/-- An IAM role resource from the infrastructure template, with its
`Properties` inlined (`resourceType` models the `.Type` tag). -/
structure IamResource where
  resourceType : String
  Path : Option String := none
  RoleName : String
  deriving Repr, DecidableEq

/-- A role specification: a literal string, or the structured intrinsic
attribute reference (only the target logical name is read). -/
inductive RoleSpec where
  | str (s : String)
  | getAtt (resourceId : String)
  deriving Repr, DecidableEq

/-- The remote calls the reconciler can issue, in order. -/
inductive RemoteCall where
  | getAccountId
  | iamGetRole (roleName : String)
  | updateFunctionConfig (p : Patch)
  deriving Repr, DecidableEq

/-- The collaborators `normalizeArnRole` consults: the template's
resource set, the resolved account id, and the live IAM role lookup
(returning the `Arn` of the response). -/
structure DeployEnv where
  resources : List (String × IamResource)
  accountId : String
  getRoleArn : String → String

/-- `role.indexOf(':') === -1`, negated. -/
def hasColon (s : String) : Bool := s.data.contains ':'

/-- `normalizeArnRole`: a string containing a colon is resolved to
itself with no remote call; a colon-free string is treated as a logical
resource name (undefined lookup throws, a non-role type throws,
otherwise the ARN is synthesized from the account id after a
`getAccountId` call, with the declared path defaulting to a slash, an
empty path being falsy as well); the structured intrinsic form issues
one IAM lookup.  Alongside the result, the list of remote calls made. -/
def normalizeArnRole (env : DeployEnv) (role : RoleSpec) :
    List RemoteCall × Except RoleError String :=
  match role with
  | RoleSpec.str s =>
    if hasColon s then ([], Except.ok s)
    else
      match env.resources.lookup s with
      | none => ([], Except.error RoleError.typeErrorUndefined)
      | some r =>
        if r.resourceType = "AWS::IAM::Role" then
          ([RemoteCall.getAccountId],
            Except.ok ("arn:aws:iam::" ++ env.accountId ++ ":role" ++
              (match r.Path with
               | some p => if p == "" then "/" else p
               | none => "/") ++ r.RoleName))
        else ([], Except.error RoleError.notIamRole)
  | RoleSpec.getAtt resourceId =>
    ([RemoteCall.iamGetRole resourceId], Except.ok (env.getRoleArn resourceId))

/-- The role the reconciler resolves: the function-level one when
present and non-structured, else the provider-level one (lines 321-333,
whose two branches are identical up to the source object). -/
def roleOf (cfg : Config) : Option String :=
  optOr (jfScalar cfg.functionObj.role) (jfScalar cfg.providerObj.role)

/-- `updateFunctionConfiguration`: build the params (which can throw
locally before any remote call), resolve the role if one is specified
(always followed by an update call), otherwise skip the update call
exactly when the params hold nothing beyond the function name.  The
first component is the ordered trace of remote calls. -/
def updateFunctionConfiguration (env : DeployEnv) (cfg : Config) :
    List RemoteCall × Except JsError Patch :=
  match buildParams cfg with
  | Except.error e => ([], Except.error e)
  | Except.ok params =>
    match roleOf cfg with
    | some r =>
      match normalizeArnRole env (RoleSpec.str r) with
      | (calls, Except.error e) => (calls, Except.error (JsError.roleError e))
      | (calls, Except.ok arn) =>
        let p := { params with Role := some arn }
        (calls ++ [RemoteCall.updateFunctionConfig p], Except.ok p)
    | none =>
      if patchOnlyName params then ([], Except.ok params)
      else ([RemoteCall.updateFunctionConfig params], Except.ok params)

lemma lookup_append (k : String) (A B : List (String × JVal)) :
    (A ++ B).lookup k
      = match A.lookup k with
        | some v => some v
        | none => B.lookup k := by
  induction A with
  | nil => simp [List.lookup]
  | cons hd tl ih =>
    obtain ⟨a, b⟩ := hd
    by_cases hk : (k == a) = true
    · simp [List.lookup, hk]
    · simp only [List.cons_append, List.lookup, hk]
      exact ih

lemma lookup_map_getD (fn : List (String × JVal)) (k : String)
    (prov : List (String × JVal)) :
    (prov.map (fun kv => (kv.1, (fn.lookup kv.1).getD kv.2))).lookup k
      = (prov.lookup k).map (fun v => (fn.lookup k).getD v) := by
  induction prov with
  | nil => simp
  | cons hd tl ih =>
    obtain ⟨a, b⟩ := hd
    by_cases hk : (k == a) = true
    · have hka : k = a := by simpa using hk
      subst hka
      simp [List.lookup, hk]
    · simp [List.lookup, hk, ih]

lemma lookup_filter_isNone (prov : List (String × JVal)) (k : String)
    (fn : List (String × JVal)) :
    (fn.filter (fun kv => (prov.lookup kv.1).isNone)).lookup k
      = if (prov.lookup k).isNone then fn.lookup k else none := by
  induction fn with
  | nil => simp
  | cons hd tl ih =>
    obtain ⟨a, b⟩ := hd
    by_cases hk : (k == a) = true
    · have hka : k = a := by simpa using hk
      subst hka
      by_cases hp : (prov.lookup k).isNone = true
      · simp [List.filter_cons, hp, List.lookup, hk]
      · have hp2 : (prov.lookup k).isNone = false := by
          cases hq : (prov.lookup k).isNone
          · rfl
          · exact absurd hq hp
        simp [List.filter_cons, hp2, List.lookup, hk, ih]
    · by_cases hp : (prov.lookup a).isNone = true
      · simp [List.filter_cons, hp, List.lookup, hk, ih]
      · have hp2 : (prov.lookup a).isNone = false := by
          cases hq : (prov.lookup a).isNone
          · rfl
          · exact absurd hq hp
        simp [List.filter_cons, hp2, List.lookup, hk, ih]

lemma mergeEnv_lookup (prov fn : List (String × JVal)) (k : String) :
    (mergeEnv prov fn).lookup k
      = match fn.lookup k with
        | some v => some v
        | none => prov.lookup k := by
  unfold mergeEnv
  rw [lookup_append, lookup_map_getD]
  cases hf : fn.lookup k with
  | none =>
    cases hp : prov.lookup k with
    | none => simp [hf, hp, lookup_filter_isNone]
    | some w => simp [hf, hp]
  | some v =>
    cases hp : prov.lookup k with
    | none => simp [hf, hp, lookup_filter_isNone]
    | some w => simp [hf, hp]

lemma buildParams_ok (cfg : Config) (envv : Option (List (String × JVal)))
    (h : envEntry cfg = Except.ok envv) :
    buildParams cfg = Except.ok
      { FunctionName := cfg.functionObj.name
        KMSKeyArn := optOr (jfScalar cfg.functionObj.awsKmsKeyArn)
          (match cfg.serviceObj with
           | some so => jfScalar so.awsKmsKeyArn
           | none => none)
        Description := jfScalar cfg.functionObj.description
        MemorySize := optOr (jfScalar cfg.functionObj.memorySize)
          (jfScalar cfg.providerObj.memorySize)
        Timeout := optOr (jfScalar cfg.functionObj.timeout)
          (jfScalar cfg.providerObj.timeout)
        DeadLetterTargetArn := onErrorEntry cfg.functionObj
        Environment := envv
        VpcConfig := vpcEntry cfg } := by
  unfold buildParams
  rw [h]
  rfl

lemma buildParams_error (cfg : Config) (e : JsError)
    (h : envEntry cfg = Except.error e) :
    buildParams cfg = Except.error e := by
  unfold buildParams
  rw [h]
  rfl

lemma updateFC_error (env : DeployEnv) (cfg : Config) (e : JsError)
    (hb : buildParams cfg = Except.error e) :
    updateFunctionConfiguration env cfg = ([], Except.error e) := by
  unfold updateFunctionConfiguration
  rw [hb]

lemma updateFC_role (env : DeployEnv) (cfg : Config) (params : Patch) (rr : String)
    (tr : List RemoteCall) (arn : String)
    (hb : buildParams cfg = Except.ok params) (hr : roleOf cfg = some rr)
    (hn : normalizeArnRole env (RoleSpec.str rr) = (tr, Except.ok arn)) :
    updateFunctionConfiguration env cfg
      = (tr ++ [RemoteCall.updateFunctionConfig { params with Role := some arn }],
         Except.ok { params with Role := some arn }) := by
  unfold updateFunctionConfiguration
  simp only [hb, hr, hn]

lemma updateFC_roleError (env : DeployEnv) (cfg : Config) (params : Patch) (rr : String)
    (tr : List RemoteCall) (e : RoleError)
    (hb : buildParams cfg = Except.ok params) (hr : roleOf cfg = some rr)
    (hn : normalizeArnRole env (RoleSpec.str rr) = (tr, Except.error e)) :
    updateFunctionConfiguration env cfg = (tr, Except.error (JsError.roleError e)) := by
  unfold updateFunctionConfiguration
  simp only [hb, hr, hn]

lemma updateFC_noRole_empty (env : DeployEnv) (cfg : Config) (params : Patch)
    (hb : buildParams cfg = Except.ok params) (hr : roleOf cfg = none)
    (hpn : patchOnlyName params = true) :
    updateFunctionConfiguration env cfg = ([], Except.ok params) := by
  unfold updateFunctionConfiguration
  simp only [hb, hr]
  rw [if_pos hpn]

lemma updateFC_noRole_nonempty (env : DeployEnv) (cfg : Config) (params : Patch)
    (hb : buildParams cfg = Except.ok params) (hr : roleOf cfg = none)
    (hpn : patchOnlyName params = false) :
    updateFunctionConfiguration env cfg
      = ([RemoteCall.updateFunctionConfig params], Except.ok params) := by
  unfold updateFunctionConfiguration
  simp only [hb, hr]
  rw [if_neg (by simp [hpn])]

/-- Claim C5: the environment entry of the patch merges the
provider-level and function-level maps with the function level winning
on key collision; any structured merged value drops the whole
environment entry from the patch (key validation is then skipped); and,
all merged values being concrete, any merged key failing the identifier
pattern aborts the operation with the invalid-environment-key error
with an empty remote-call trace, i.e. before any network call. -/
theorem env_merge_validation (cfg : Config) (k : String) :
    ((mergeEnv (cfg.providerObj.environment.getD [])
        (cfg.functionObj.environment.getD [])).lookup k
      = match (cfg.functionObj.environment.getD []).lookup k with
        | some v => some v
        | none => (cfg.providerObj.environment.getD []).lookup k) ∧
    ((cfg.functionObj.environment.isSome || cfg.providerObj.environment.isSome) = true →
      (mergedVars cfg).any (fun kv => isStructuredVal kv.2) = true →
      envEntry cfg = Except.ok none ∧
      ∀ p : Patch, buildParams cfg = Except.ok p → p.Environment = none) ∧
    ((cfg.functionObj.environment.isSome || cfg.providerObj.environment.isSome) = true →
      (mergedVars cfg).any (fun kv => isStructuredVal kv.2) = false →
      (mergedVars cfg).any (fun kv => !envKeyValid kv.1) = true →
      ∀ env : DeployEnv,
        updateFunctionConfiguration env cfg = ([], Except.error JsError.invalidEnvKey)) := by
  refine ⟨mergeEnv_lookup _ _ k, ?_, ?_⟩
  · intro hpres hstr
    have he : envEntry cfg = Except.ok none := by
      unfold envEntry
      rw [if_pos hpres, if_pos hstr]
    refine ⟨he, ?_⟩
    intro p hp
    rw [buildParams_ok cfg none he] at hp
    injection hp with h2
    rw [← h2]
  · intro hpres hstr hbad env
    have he : envEntry cfg = Except.error JsError.invalidEnvKey := by
      unfold envEntry
      rw [if_pos hpres, if_neg (by simp [hstr]), if_pos hbad]
    exact updateFC_error env cfg _ (buildParams_error cfg _ he)

/-- The spec's merge example, function level `A = 1` against provider
level `B = 2, A = x`. -/
def cfgMerge : Config :=
  { functionObj := { name := "f", environment := some [("A", JVal.str "1")] },
    providerObj := { environment := some [("B", JVal.str "2"), ("A", JVal.str "x")] } }

/-- A merged environment with a structured value and an invalid key:
the environment entry is dropped without raising. -/
def cfgEnvStruct : Config :=
  { functionObj :=
      { name := "f"
        environment := some [("GOOD", JVal.structured), ("BAD KEY", JVal.str "x")] } }

/-- A fully concrete merged environment whose key starts with a digit. -/
def cfgEnvBad : Config :=
  { functionObj := { name := "f", environment := some [("1BAD", JVal.str "x")] } }

/-- A collaborator environment that is never consulted in the witness
runs. -/
def envNone : DeployEnv := { resources := [], accountId := "", getRoleArn := fun _ => "" }

theorem env_merge_validation_witness :
    (mergeEnv [("B", JVal.str "2"), ("A", JVal.str "x")] [("A", JVal.str "1")]).lookup "A"
        = some (JVal.str "1") ∧
    (mergeEnv [("B", JVal.str "2"), ("A", JVal.str "x")] [("A", JVal.str "1")]).lookup "B"
        = some (JVal.str "2") ∧
    envEntry cfgEnvStruct = Except.ok none ∧
    updateFunctionConfiguration envNone cfgEnvBad
      = ([], Except.error JsError.invalidEnvKey) := by
  refine ⟨?_, ?_, ?_, ?_⟩
  · exact ((env_merge_validation cfgMerge "A").1).trans (by rfl)
  · exact ((env_merge_validation cfgMerge "B").1).trans (by rfl)
  · exact ((env_merge_validation cfgEnvStruct "A").2.1 (by rfl) (by rfl)).1
  · exact (env_merge_validation cfgEnvBad "A").2.2 (by rfl) (by rfl) (by rfl) envNone

/-- Claim C3: when the computed params hold nothing beyond the
identifying function name (no role specified either — a specified role
always lands in the patch), the operation issues no remote call at all
and completes successfully as a no-op, not as an error. -/
theorem empty_patch_is_noop (env : DeployEnv) (cfg : Config) (p : Patch)
    (hb : buildParams cfg = Except.ok p) (hname : patchOnlyName p = true)
    (hrole : roleOf cfg = none) :
    updateFunctionConfiguration env cfg = ([], Except.ok p) :=
  updateFC_noRole_empty env cfg p hb hrole hname

/-- A desired configuration specifying nothing but the name. -/
def cfgEmpty : Config := { functionObj := { name := "hello" } }

theorem empty_patch_is_noop_witness :
    updateFunctionConfiguration envNone cfgEmpty
      = ([], Except.ok { FunctionName := "hello" }) :=
  empty_patch_is_noop envNone cfgEmpty { FunctionName := "hello" } (by rfl) (by rfl) (by rfl)

/-- The remote function descriptor of the spec's data model, owned by
the platform (`remoteFunctionData.Configuration`); the reconciler under
test never reads it while computing the patch. -/
structure RemoteFunctionDescriptor where
  name : String
  codeHash : String := ""
  kmsKeyRef : Option String := none
  description : Option String := none
  memorySize : Option Int := none
  timeout : Option Int := none
  deadLetterTarget : Option String := none
  environment : List (String × String) := []
  vpcSecurityGroupIds : Option (List String) := none
  vpcSubnetIds : Option (List String) := none
  role : Option String := none
  deriving Repr, DecidableEq

/-- Modelled from the spec: a desired field, where concretely
specified, agrees with the remote value; an unspecified desired field
constrains nothing. -/
def optMatches {α : Type} [BEq α] : Option α → Option α → Bool
  | none, _ => true
  | some v, r => r == some v

/-- Modelled from the spec: the concrete string entries of a merged
environment, defined only when no value is a structured placeholder. -/
def concreteEnv (l : List (String × JVal)) : Option (List (String × String)) :=
  if l.any (fun kv => isStructuredVal kv.2) then none
  else some (l.filterMap (fun kv =>
    match kv.2 with
    | JVal.str s => some (kv.1, s)
    | JVal.structured => none))

/-- Two string maps agreeing as finite maps. -/
def sameStringMap (a b : List (String × String)) : Bool :=
  a.all (fun kv => b.lookup kv.1 == some kv.2) &&
    b.all (fun kv => a.lookup kv.1 == some kv.2)

/-- Modelled from the spec: a present id list all of whose entries are
concrete strings. -/
def concreteIds (l : Option (List JVal)) : Option (List String) :=
  match l with
  | none => none
  | some xs =>
    if xs.any isStructuredVal then none
    else some (xs.filterMap (fun v =>
      match v with
      | JVal.str s => some s
      | JVal.structured => none))

/-- Modelled from the spec (claim C2's hypothesis): the desired
configuration matches the current remote descriptor on every field —
the effective desired value of each field (function level over
provider or service level), where concrete, equals the remote
descriptor's value; placeholder values constrain nothing. -/
def specMatchesRemote (cfg : Config) (r : RemoteFunctionDescriptor) : Bool :=
  cfg.functionObj.name == r.name &&
  optMatches (optOr (jfScalar cfg.functionObj.awsKmsKeyArn)
    (match cfg.serviceObj with
     | some so => jfScalar so.awsKmsKeyArn
     | none => none)) r.kmsKeyRef &&
  optMatches (jfScalar cfg.functionObj.description) r.description &&
  optMatches (optOr (jfScalar cfg.functionObj.memorySize)
    (jfScalar cfg.providerObj.memorySize)) r.memorySize &&
  optMatches (optOr (jfScalar cfg.functionObj.timeout)
    (jfScalar cfg.providerObj.timeout)) r.timeout &&
  optMatches (onErrorEntry cfg.functionObj) r.deadLetterTarget &&
  (if (cfg.functionObj.environment.isSome || cfg.providerObj.environment.isSome) = true then
    match concreteEnv (mergedVars cfg) with
    | some conc => sameStringMap conc r.environment
    | none => true
   else true) &&
  (match optOr cfg.functionObj.vpc cfg.providerObj.vpc with
   | none => true
   | some v =>
     optMatches (concreteIds v.securityGroupIds) r.vpcSecurityGroupIds &&
       optMatches (concreteIds v.subnetIds) r.vpcSubnetIds) &&
  optMatches (roleOf cfg) r.role

/-- A desired configuration: name `hello`, description `greets`,
nothing else specified. -/
def cfgMatch : Config :=
  { functionObj := { name := "hello", description := JField.scalar "greets" } }

/-- A remote descriptor agreeing with `cfgMatch` on every field. -/
def remoteMatch : RemoteFunctionDescriptor :=
  { name := "hello", description := some "greets" }

/-- The patch the reconciler actually produces for `cfgMatch`. -/
def patchMatch : Patch := { FunctionName := "hello", Description := some "greets" }

/-- Claim C2 counterexample: a desired configuration matching the
remote descriptor on every field still yields a non-empty patch and
exactly one remote update call — the reconciler computes the patch from
the desired configuration alone and never consults the remote
descriptor. -/
theorem noop_reconciliation_counterexample :
    specMatchesRemote cfgMatch remoteMatch = true ∧
    updateFunctionConfiguration envNone cfgMatch
      = ([RemoteCall.updateFunctionConfig patchMatch], Except.ok patchMatch) ∧
    patchOnlyName patchMatch = false := by
  refine ⟨by decide, by rfl, by decide⟩

/-- Claim C2 (amended): the patch is computed from the desired
configuration alone, so agreement with the remote descriptor does not
empty it; whenever the reconciler completes with a patch, it issued
zero remote calls exactly when the patch holds nothing beyond the
identifying name. -/
theorem reconcile_zero_calls_iff_patch_empty (env : DeployEnv) (cfg : Config)
    (calls : List RemoteCall) (p : Patch)
    (h : updateFunctionConfiguration env cfg = (calls, Except.ok p)) :
    (calls = [] ↔ patchOnlyName p = true) := by
  cases hb : buildParams cfg with
  | error e =>
    rw [updateFC_error env cfg e hb] at h
    simp at h
  | ok params =>
    cases hr : roleOf cfg with
    | some rr =>
      rcases hn : normalizeArnRole env (RoleSpec.str rr) with ⟨tr, res⟩
      cases res with
      | error e =>
        rw [updateFC_roleError env cfg params rr tr e hb hr hn] at h
        simp at h
      | ok arn =>
        rw [updateFC_role env cfg params rr tr arn hb hr hn] at h
        have hc : tr ++ [RemoteCall.updateFunctionConfig { params with Role := some arn }]
            = calls := congrArg Prod.fst h
        have hpp : p = { params with Role := some arn } := by
          have h2 := congrArg Prod.snd h
          simp at h2
          exact h2.symm
        subst hpp
        constructor
        · intro hnil
          rw [← hc] at hnil
          simp at hnil
        · intro hpn
          simp [patchOnlyName] at hpn
    | none =>
      by_cases hpn : patchOnlyName params = true
      · rw [updateFC_noRole_empty env cfg params hb hr hpn] at h
        have hc : ([] : List RemoteCall) = calls := congrArg Prod.fst h
        have hpp : p = params := by
          have h2 := congrArg Prod.snd h
          simp at h2
          exact h2.symm
        subst hpp
        rw [← hc]
        simp [hpn]
      · have hpn2 : patchOnlyName params = false := by
          cases hq : patchOnlyName params
          · rfl
          · exact absurd hq hpn
        rw [updateFC_noRole_nonempty env cfg params hb hr hpn2] at h
        have hc : [RemoteCall.updateFunctionConfig params] = calls := congrArg Prod.fst h
        have hpp : p = params := by
          have h2 := congrArg Prod.snd h
          simp at h2
          exact h2.symm
        subst hpp
        constructor
        · intro hnil
          rw [← hc] at hnil
          simp at hnil
        · intro hq
          exact absurd hq hpn

theorem reconcile_zero_calls_iff_patch_empty_witness :
    ([RemoteCall.updateFunctionConfig patchMatch] = ([] : List RemoteCall)
      ↔ patchOnlyName patchMatch = true) :=
  reconcile_zero_calls_iff_patch_empty envNone cfgMatch _ patchMatch (by rfl)

/-- The logical-name role lookup environment of the counterexample. -/
def roleEnvW : DeployEnv :=
  { resources := [("myRole",
      { resourceType := "AWS::IAM::Role", RoleName := "my-role-name" })],
    accountId := "123456789012", getRoleArn := fun _ => "" }

/-- Claim C7 counterexample: the colon-free literal `myRole` is not
returned unchanged — the resolver treats it as a logical resource name,
synthesizes the ARN from the template resource and the account id, and
issues a `getAccountId` remote call. -/
theorem no_colon_role_counterexample :
    hasColon "myRole" = false ∧
    normalizeArnRole roleEnvW (RoleSpec.str "myRole")
      = ([RemoteCall.getAccountId],
         Except.ok "arn:aws:iam::123456789012:role/my-role-name") ∧
    ¬ (normalizeArnRole roleEnvW (RoleSpec.str "myRole")
        = ([], Except.ok "myRole")) := by
  refine ⟨by decide, by rfl, ?_⟩
  intro h
  rw [show normalizeArnRole roleEnvW (RoleSpec.str "myRole")
      = ([RemoteCall.getAccountId],
         Except.ok "arn:aws:iam::123456789012:role/my-role-name") from rfl] at h
  simp at h

/-- Claim C7 (amended): a literal role string containing the
identity-delimiter colon is returned unchanged, as a completed result,
with zero remote calls; colon-free literals are instead treated as
logical resource names. -/
theorem colon_role_returned_unchanged (env : DeployEnv) (s : String)
    (h : hasColon s = true) :
    normalizeArnRole env (RoleSpec.str s) = ([], Except.ok s) := by
  unfold normalizeArnRole
  simp [h]

theorem colon_role_returned_unchanged_witness :
    normalizeArnRole envNone (RoleSpec.str "arn:aws:iam::123456789012:role/already")
      = ([], Except.ok "arn:aws:iam::123456789012:role/already") :=
  colon_role_returned_unchanged envNone _ (by decide)

/-- A vpc with only the security-group list present. -/
def cfgVpcOnly : Config :=
  { functionObj :=
      { name := "net"
        vpc := some { securityGroupIds := some [JVal.str "sg-1"] } } }

/-- Claim C8 counterexample: with only the security-group list present
and no subnet list at all, the network-placement field is still
included in the patch — inclusion does not require both lists. -/
theorem vpc_both_lists_counterexample :
    (cfgVpcOnly.functionObj.vpc.bind (fun v => v.subnetIds)) = none ∧
    buildParams cfgVpcOnly = Except.ok
      { FunctionName := "net"
        VpcConfig := some { SecurityGroupIds := some [JVal.str "sg-1"] } } :=
  ⟨rfl, rfl⟩

/-- Claim C8 (amended): the network-placement field is included in the
patch exactly when a vpc object is present (function level first) and
at least one of the two id lists is a present array free of structured
placeholders — each list is included individually under that same test,
and both are not required. -/
theorem vpc_entry_iff (cfg : Config) (p : Patch)
    (hb : buildParams cfg = Except.ok p) :
    (p.VpcConfig.isSome = true ↔
      ∃ v, optOr cfg.functionObj.vpc cfg.providerObj.vpc = some v ∧
        ((arrOk v.securityGroupIds).isSome = true ∨ (arrOk v.subnetIds).isSome = true)) := by
  have hv : p.VpcConfig = vpcEntry cfg := by
    cases he : envEntry cfg with
    | error e =>
      rw [buildParams_error cfg e he] at hb
      cases hb
    | ok envv =>
      rw [buildParams_ok cfg envv he] at hb
      injection hb with h2
      rw [← h2]
  rw [hv]
  unfold vpcEntry
  cases ho : optOr cfg.functionObj.vpc cfg.providerObj.vpc with
  | none => simp
  | some v =>
    cases hs : arrOk v.securityGroupIds <;> cases ht : arrOk v.subnetIds <;>
      simp [hs, ht]

/-- The patch produced for `cfgVpcOnly`. -/
def patchVpcOnly : Patch :=
  { FunctionName := "net"
    VpcConfig := some { SecurityGroupIds := some [JVal.str "sg-1"] } }

theorem vpc_entry_iff_witness :
    (patchVpcOnly.VpcConfig.isSome = true ↔
      ∃ v, optOr cfgVpcOnly.functionObj.vpc cfgVpcOnly.providerObj.vpc = some v ∧
        ((arrOk v.securityGroupIds).isSome = true ∨ (arrOk v.subnetIds).isSome = true)) :=
  vpc_entry_iff cfgVpcOnly patchVpcOnly (by rfl)

theorem artifact_sync_gate_witness :
    deployFunction (fun _ => "HASH") [1, 2] "HASH" false = (SyncResult.Skipped, 0) ∧
    deployFunction (fun _ => "HASH") [1, 2] "HASH" true = (SyncResult.Uploaded, 1) :=
  ⟨(artifact_sync_gate (fun _ => "HASH") [1, 2] "HASH" false).2.1 ⟨rfl, rfl⟩,
    (artifact_sync_gate (fun _ => "HASH") [1, 2] "HASH" true).2.2 rfl⟩
